import Mathlib

/-!
Verification of the extraction-result reconciliation and review-triage engine
of the medical-chart backend.

The Python source is shallowly embedded:

* JSONB documents (`ExtractedData.data`) are modelled by `JVal` / `Document`,
  an insertion-ordered association list with string keys, matching CPython
  `dict` semantics (`d[k] = v` replaces the value in place when the key is
  present, otherwise appends; lookups return the value at the unique key).
* Python `None` becomes `Option`/`JVal.null`; floats become `ℚ`
  (all scores in the source are exact ratios of integers, no rounding).
* Python truthiness (`if x:`) is modelled by `pyTruthy` / explicit
  emptiness tests, as noted at each use site.
-/

namespace MedChart

/-- JSON value as stored in the `ExtractedData.data` JSONB column. -/
inductive JVal where
  | null : JVal
  | bool (b : Bool) : JVal
  | num (q : ℚ) : JVal
  | str (s : String) : JVal
  | arr (xs : List JVal) : JVal
  | obj (kvs : List (String × JVal)) : JVal

/-- A JSON object / Python dict: insertion-ordered association list. -/
abbrev Document := List (String × JVal)

/-- Python `d[k]` / `d.get(k)`: value at the first occurrence of the key. -/
def alLookup : List (String × JVal) → String → Option JVal
  | [], _ => none
  | (k, v) :: rest, key => if k = key then some v else alLookup rest key

/-- Python `d[k] = v`: replace the value in place if the key exists
(keeping its position), otherwise append the pair at the end. -/
def alSet : List (String × JVal) → String → JVal → List (String × JVal)
  | [], key, v => [(key, v)]
  | (k, w) :: rest, key, v =>
      if k = key then (k, v) :: rest else (k, w) :: alSet rest key v

/-- Python truthiness of a JSON value (`if x:`). -/
def pyTruthy : JVal → Bool
  | .null => false
  | .bool b => b
  | .num q => q ≠ 0
  | .str s => s ≠ ""
  | .arr xs => ¬xs.isEmpty
  | .obj kvs => ¬kvs.isEmpty

/-- `isinstance(d.get(k), list)` access: the value at `key` when it is a list. -/
def getArr (d : Document) (key : String) : Option (List JVal) :=
  match alLookup d key with
  | some (.arr xs) => some xs
  | _ => none

/-- `item.get(k)` on a JSON object (the values handled are always objects). -/
def jGet (v : JVal) (k : String) : Option JVal :=
  match v with
  | .obj kvs => alLookup kvs k
  | _ => none

/-- `item.get(k, default)` on a JSON object. -/
def jGetD (v : JVal) (k : String) (d : JVal) : JVal :=
  (jGet v k).getD d

/-! ## Similarity Scorer (`app/services/similarity_service.py`) -/

/-- `SIMILARITY_THRESHOLD = 0.8` — text (Levenshtein) threshold. -/
def SIMILARITY_THRESHOLD : ℚ := 8/10

/-- `CONFIDENCE_THRESHOLD = 0.7` — vector (semantic) threshold. -/
def CONFIDENCE_THRESHOLD : ℚ := 7/10

/-- Levenshtein edit distance (`rapidfuzz.distance.Levenshtein.distance`). -/
def levDist : List Char → List Char → Nat
  | [], ys => ys.length
  | x :: xs, [] => (x :: xs).length
  | x :: xs, y :: ys =>
      if x = y then levDist xs ys
      else 1 + min (levDist xs (y :: ys)) (min (levDist (x :: xs) ys) (levDist xs ys))
termination_by xs ys => xs.length + ys.length
decreasing_by all_goals simp_arith

/-- Indel (insert/delete only) edit distance; `rapidfuzz.fuzz.ratio` is the
normalized similarity `100 * (1 - indel / (len1 + len2))`. -/
def indelDist : List Char → List Char → Nat
  | [], ys => ys.length
  | x :: xs, [] => (x :: xs).length
  | x :: xs, y :: ys =>
      if x = y then indelDist xs ys
      else 1 + min (indelDist (x :: xs) ys) (indelDist xs (y :: ys))
termination_by xs ys => xs.length + ys.length
decreasing_by all_goals simp_arith

/-- Python `str.strip()` (whitespace trimmed from both ends). -/
def pyStrip (s : String) : String :=
  ((s.data.dropWhile Char.isWhitespace).reverse.dropWhile Char.isWhitespace).reverse.asString

/-- `calculate_levenshtein_similarity(raw_text, interpreted_text)`:
emptiness checks first, then `strip`, then `1 - distance / max_len`. -/
def calculate_levenshtein_similarity (raw_text interpreted_text : Option String) : ℚ :=
  match raw_text, interpreted_text with
  | none, none => 1          -- both None: treated as a perfect match
  | none, some _ => 0        -- exactly one None: complete mismatch
  | some _, none => 0
  | some r, some i =>
      if r = "" ∧ i = "" then 1          -- `not raw_text and not interpreted_text`
      else if r = "" ∨ i = "" then 0     -- `not raw_text or not interpreted_text`
      else
        let r := pyStrip r
        let i := pyStrip i
        let maxLen : Nat := max r.length i.length
        if maxLen = 0 then 1             -- both strings whitespace-only
        else 1 - (levDist r.data i.data : ℚ) / (maxLen : ℚ)

/-- `calculate_semantic_similarity(raw_text, interpreted_text)`:
None checks, then `strip` (before the emptiness checks, unlike the
Levenshtein variant), then `fuzz.ratio(...) / 100`. -/
def calculate_semantic_similarity (raw_text interpreted_text : Option String) : ℚ :=
  match raw_text, interpreted_text with
  | none, none => 1
  | none, some _ => 0
  | some _, none => 0
  | some r, some i =>
      let r := pyStrip r
      let i := pyStrip i
      if r = "" ∧ i = "" then 1
      else if r = "" ∨ i = "" then 0
      else 1 - (indelDist r.data i.data : ℚ) / ((r.length : ℚ) + (i.length : ℚ))

/-- `should_review(similarity_score, confidence_score, error_occurred)`. -/
def should_review (similarity_score confidence_score : Option ℚ)
    (error_occurred : Bool) : Bool :=
  if error_occurred then true
  else
    match similarity_score, confidence_score with
    | some s, some c =>
        decide (s < SIMILARITY_THRESHOLD) || decide (c < CONFIDENCE_THRESHOLD)
    | _, _ => true

/-! ## Extraction Orchestrator (`app/tasks/process_chart.py`) -/

/-- `ProcessStatus` enum (`app/db/models.py`). -/
inductive ProcessStatus where
  | pending | processing | completed | failed | partialSuccess
deriving DecidableEq

/-- One element of the stage-1 output list `{item_name, raw_text}`;
`raw_text` is read with `item.get("raw_text")`, hence optional. -/
structure RawItem where
  item_name : String
  raw_text : Option String
deriving DecidableEq

/-- One element of the stage-2 output list `{item_name, interpreted_text}`. -/
structure InterpItem where
  item_name : String
  interpreted_text : Option String
deriving DecidableEq

/-- Association list with `Option String` values, same `d[k] = v` semantics
as `alSet` (used for `raw_dict` / `interpreted_dict`). -/
def osSet : List (String × Option String) → String → Option String →
    List (String × Option String)
  | [], key, v => [(key, v)]
  | (k, w) :: rest, key, v =>
      if k = key then (k, v) :: rest else (k, w) :: osSet rest key v

/-- First-occurrence lookup in an `Option String` association list. -/
def osLookup : List (String × Option String) → String → Option (Option String)
  | [], _ => none
  | (k, v) :: rest, key => if k = key then some v else osLookup rest key

/-- `{item["item_name"]: item.get("raw_text") for item in raw_items}` —
later duplicates overwrite, insertion order is first occurrence. -/
def buildRawDict (raw_items : List RawItem) : List (String × Option String) :=
  raw_items.foldl (fun acc it => osSet acc it.item_name it.raw_text) []

/-- `{item["item_name"]: item.get("interpreted_text") for item in interpreted_items}`. -/
def buildInterpDict (interpreted_items : List InterpItem) :
    List (String × Option String) :=
  interpreted_items.foldl (fun acc it => osSet acc it.item_name it.interpreted_text) []

/-- `dict.get(key)`: `none` when the key is absent or its stored value is `None`. -/
def osGet (d : List (String × Option String)) (key : String) : Option String :=
  (osLookup d key).join

/-- The default key set substituted when no extraction keys were found
(`all_keys` fallback in `process_extracted_items`). -/
def defaultKeys : List String :=
  ["主訴", "現病歴", "既往歴", "家族歴", "生活歴", "内服薬", "身体所見"]

/-- Union of the two dicts' key sets. CPython iterates a `set` in an
unspecified order; the model fixes first-occurrence order (raw keys first),
which the properties proved here do not depend on. -/
def unionKeys (rawDict interpDict : List (String × Option String)) : List String :=
  rawDict.map Prod.fst ++
    (interpDict.map Prod.fst).filter (fun k => ¬(rawDict.map Prod.fst).contains k)

/-- Per-field computation of the `process_extracted_items` loop body
(lines 166–196): raw/interpreted texts, error detection, the raw-text
stand-in, both scores and the per-item review decision. -/
structure FieldCalc where
  raw_text : Option String
  interpreted_text : Option String
  similarity_score : ℚ
  confidence_score : ℚ
  needs_review : Bool
  error_occurred : Bool

/-- Loop body of `process_extracted_items` for one key. -/
def calcField (rawDict interpDict : List (String × Option String))
    (key : String) : FieldCalc :=
  let raw_text := osGet rawDict key
  let interpreted_text₀ := osGet interpDict key
  let error_occurred := raw_text.isNone || interpreted_text₀.isNone
  -- `if interpreted_text is None and raw_text is not None:` use the raw
  -- text as stand-in and force the error flag
  let interpreted_text :=
    if interpreted_text₀.isNone && raw_text.isSome then raw_text else interpreted_text₀
  let error_occurred :=
    if interpreted_text₀.isNone && raw_text.isSome then true else error_occurred
  let similarity_score :=
    if ¬error_occurred then calculate_levenshtein_similarity raw_text interpreted_text
    else 0
  let confidence_score :=
    if ¬error_occurred then calculate_semantic_similarity raw_text interpreted_text
    else 0
  let needs_review :=
    should_review (some similarity_score) (some confidence_score) error_occurred
  { raw_text, interpreted_text, similarity_score, confidence_score,
    needs_review, error_occurred }

/-- The `item_data` dict literal (lines 199–210), keys in source order. -/
def fieldRecord (c : FieldCalc) : List (String × JVal) :=
  [("raw_text", match c.raw_text with | some s => .str s | none => .null),
   ("interpreted_text", match c.interpreted_text with | some s => .str s | none => .null),
   ("similarity_score", .num c.similarity_score),
   ("confidence_score", .num c.confidence_score),
   ("needs_review", .bool c.needs_review),
   ("review_comment", .null),
   ("reviewed_by", .null),
   ("reviewed_at", .null),
   ("error_occurred", .bool c.error_occurred),
   ("threshold", .num (7/10))]

/-- `all_keys` of `process_extracted_items`: the union of the two dicts'
key sets, with the hard-coded default key set substituted when empty. -/
def processKeys (raw_items : List RawItem) (interpreted_items : List InterpItem) :
    List String :=
  let keys := unionKeys (buildRawDict raw_items) (buildInterpDict interpreted_items)
  if keys.isEmpty then defaultKeys else keys

/-- The per-key loop of `process_extracted_items`: each key paired with
its computed field data. -/
def processRecords (raw_items : List RawItem) (interpreted_items : List InterpItem) :
    List (String × FieldCalc) :=
  (processKeys raw_items interpreted_items).map
    (fun k => (k, calcField (buildRawDict raw_items)
      (buildInterpDict interpreted_items) k))

/-- `jsonb_data[key] = item_data` accumulation: the keys come from a
Python set, so they are pairwise distinct (`processKeys_nodup` below) and
the per-iteration dict insertions build exactly this insertion-ordered
association list. -/
def processFields (raw_items : List RawItem) (interpreted_items : List InterpItem) :
    Document :=
  (processRecords raw_items interpreted_items).map
    (fun kc => (kc.1, JVal.obj (fieldRecord kc.2)))

/-- `review_item = dict(item_data); review_item["item_name"] = key`
accumulated over the loop. -/
def processReviewItems (raw_items : List RawItem)
    (interpreted_items : List InterpItem) : List JVal :=
  (processRecords raw_items interpreted_items).map
    (fun kc => .obj (fieldRecord kc.2 ++ [("item_name", .str kc.1)]))

/-- The `raw_items` mirror built from `jsonb_data.items()`. -/
def processRawItemsOut (raw_items : List RawItem)
    (interpreted_items : List InterpItem) : List JVal :=
  (processFields raw_items interpreted_items).map (fun kv =>
    .obj [("item_name", .str kv.1), ("raw_text", jGetD kv.2 "raw_text" .null)])

/-- The `interpreted_items` mirror built from `jsonb_data.items()`. -/
def processInterpItemsOut (raw_items : List RawItem)
    (interpreted_items : List InterpItem) : List JVal :=
  (processFields raw_items interpreted_items).map (fun kv =>
    .obj [("item_name", .str kv.1),
          ("interpreted_text", jGetD kv.2 "interpreted_text" .null)])

/-- `process_extracted_items(raw_items, interpreted_items)`:
returns the JSONB document, the aggregate review flag and the mean
confidence score. -/
def process_extracted_items (raw_items : List RawItem)
    (interpreted_items : List InterpItem) : Document × Bool × ℚ :=
  let records := processRecords raw_items interpreted_items
  let needs_review := records.any (fun kc => kc.2.needs_review)
  let fields := processFields raw_items interpreted_items
  let review_items := processReviewItems raw_items interpreted_items
  -- `jsonb_data.update(unified_data)` in dict-literal key order
  let unified : List (String × JVal) :=
    [("review_items", .arr review_items),
     ("template_id", .null),
     ("template_name", .null),
     ("raw_items", .arr (processRawItemsOut raw_items interpreted_items)),
     ("interpreted_items", .arr (processInterpItemsOut raw_items interpreted_items))]
  let jsonb := unified.foldl (fun acc kv => alSet acc kv.1 kv.2) fields
  -- mean of the per-item `confidence_score` (1.0 for an empty document)
  let average_confidence : ℚ :=
    if review_items.isEmpty then 1
    else (records.map (fun kc => kc.2.confidence_score)).sum / (review_items.length : ℚ)
  (jsonb, needs_review, average_confidence)

/-- Default item set substituted in `run_extraction_task` when
`len(raw_items) == 0` (lines 58–66). -/
def defaultRawItems : List RawItem :=
  defaultKeys.map (fun k => { item_name := k, raw_text := some "" })

/-- Outcome of one orchestrator run: terminal chart status, error message,
and the persisted payload `(data, overall_confidence, needs_review)` handed
to `create_extracted_data_jsonb` (whose `needs_review` is then written to
the chart by `update_chart_review_status`). `none` = nothing persisted. -/
structure RunResult where
  status : ProcessStatus
  error_message : Option String
  saved : Option (Document × ℚ × Bool)

/-- `any(item_data.get("error_occurred", False) for item_data in
jsonb_data.values() if isinstance(item_data, dict) and "error_occurred" in item_data)`. -/
def anyFieldError (d : Document) : Bool :=
  d.any (fun kv =>
    match kv.2 with
    | .obj kvs =>
        match alLookup kvs "error_occurred" with
        | some w => pyTruthy w
        | none => false
    | _ => false)

/-- `run_extraction_task(chart_id, gcs_uri, db_session)`, with the external
collaborators abstracted: `image_ok` is whether the GCS download returned
data, `stage1`/`stage2` are the outcomes of the two retried AI calls
(`.error` = the call raised after exhausting its retries). -/
def run_extraction_task (image_ok : Bool)
    (stage1 : Except String (List RawItem))
    (stage2 : Except String (List InterpItem)) : RunResult :=
  if ¬image_ok then
    { status := .failed, error_message := some "Failed to download image", saved := none }
  else
    match stage1 with
    | .error e =>
        { status := .failed,
          error_message := some ("Error during raw text extraction: " ++ e),
          saved := none }
    | .ok raw_items =>
        -- `if not raw_items:` — an empty list is falsy in Python
        if raw_items.isEmpty then
          { status := .failed,
            error_message := some "Failed to extract raw data from image",
            saved := none }
        else
          -- `if len(raw_items) == 0:` default substitution (lines 54–66);
          -- unreachable after the emptiness check above, embedded as written
          let raw_items := if raw_items.length = 0 then defaultRawItems else raw_items
          let (interpreted_items, interpretation_error) :=
            match stage2 with
            | .ok items => (items, none)
            | .error e => (([] : List InterpItem), some e)
          let (jsonb_data, needs_review, overall_confidence) :=
            process_extracted_items raw_items interpreted_items
          let (status, error_message, needs_review) :=
            match interpretation_error with
            | some e =>
                (ProcessStatus.partialSuccess,
                 some ("Text interpretation failed: " ++ e), true)
            | none =>
                if anyFieldError jsonb_data then
                  (ProcessStatus.partialSuccess,
                   some "Some items failed to process correctly", needs_review)
                else (ProcessStatus.completed, none, needs_review)
          { status, error_message,
            saved := some (jsonb_data, overall_confidence, needs_review) }

/-! ## Template-path review decision (`app/services/chart_service.py`,
`process_chart_with_template`, lines 199–232) -/

/-- A template item dict as returned by `template_service.get_template_by_id`:
all threshold keys are always present in the dict, with possibly-`None`
(nullable column) values. -/
structure TemplateItemCfg where
  name : String
  text_similarity_threshold : Option ℚ
  vector_similarity_threshold : Option ℚ
  confidence_threshold : Option ℚ
deriving DecidableEq

/-- Python falsiness of a nullable float (`not x`): `None` and `0.0`. -/
def qFalsy : Option ℚ → Bool
  | none => true
  | some q => decide (q = 0)

/-- Threshold selection for one field (lines 200–209): `template_item` is the
template item matching the field name, if any. Missing/falsy thresholds fall
back to the item's legacy `confidence_threshold`; a field with no matching
item gets the literals `0.85` / `0.90`. -/
def selectThresholds (template_item : Option TemplateItemCfg) : Option ℚ × Option ℚ :=
  match template_item with
  | none => (some (85/100), some (90/100))
  | some item =>
      -- `.get('text_similarity_threshold', 0.85)`: the key is always present
      -- in the dict, so this reads the (possibly None) stored value
      let t := item.text_similarity_threshold
      let v := item.vector_similarity_threshold
      let t := if qFalsy item.text_similarity_threshold then item.confidence_threshold else t
      let v := if qFalsy item.vector_similarity_threshold then item.confidence_threshold else v
      (t, v)

/-- Per-field review decision (lines 229–232):
`text_similarity_score < text_threshold or vector_similarity_score <
vector_threshold`. A `None` threshold makes the Python comparison raise
`TypeError`, modelled as `none`. -/
def chartReviewDecision (template_item : Option TemplateItemCfg)
    (text_similarity_score vector_similarity_score : ℚ) : Option Bool :=
  match selectThresholds template_item with
  | (some tt, some vt) =>
      some (decide (text_similarity_score < tt) || decide (vector_similarity_score < vt))
  | _ => none

/-! ## Result Reconciler: `convert_to_standard_format`
(`app/services/db_service.py`, lines 805–857) -/

/-- `{k: v for k, v in item.items() if k != "item_name"}`. -/
def stripItemName (kvs : List (String × JVal)) : List (String × JVal) :=
  kvs.filter (fun kv => kv.1 ≠ "item_name")

/-- `convert_to_standard_format`: a document containing a `review_items`
list is flattened into the item-name-keyed map layout; any other document
is "already standard" and left untouched. Always returns `true` on a
present document (the boolean result) together with the stored document.
Dict keys are strings (JSONB), so only string `item_name` values are
folded (a non-string key cannot appear in a JSON document). -/
def convert_to_standard_format (data : Document) : Bool × Document :=
  match getArr data "review_items" with
  | none => (true, data)      -- already standard: no conversion needed
  | some review_items =>
      let standard_format : Document :=
        review_items.foldl (fun acc item =>
          match item with
          | .obj kvs =>
              match alLookup kvs "item_name" with
              | some (.str item_name) => alSet acc item_name (.obj (stripItemName kvs))
              | _ => acc
          | _ => acc) []
      -- `if key != "review_items" and not key in standard_format`
      let standard_format :=
        data.foldl (fun acc kv =>
          if kv.1 = "review_items" ∨ (alLookup acc kv.1).isSome then acc
          else alSet acc kv.1 kv.2) standard_format
      (true, standard_format)

/-! ## Review State Manager (`app/services/db_service.py`) -/

/-- The special top-level keys that are never treated as field names. -/
def specialKeys : List String :=
  ["raw_items", "interpreted_items", "template_id", "template_name", "review_items"]

/-- Python string `<`: lexicographic comparison of the code-point
sequences (the order CPython uses when `max` compares `reviewed_at` keys). -/
def pyStrLtAux : List Char → List Char → Bool
  | [], [] => false
  | [], _ :: _ => true
  | _ :: _, [] => false
  | a :: as, b :: bs =>
      if a.val < b.val then true
      else if b.val < a.val then false
      else pyStrLtAux as bs

/-- Python `a < b` on strings. -/
def pyStrLt (a b : String) : Bool := pyStrLtAux a.data b.data

/-- One comparison step of Python `max(l, key=key)`: the current best is
replaced only on a strictly greater key. -/
def pyMaxStep (key : JVal → String) (acc : Option JVal) (x : JVal) : Option JVal :=
  match acc with
  | none => some x
  | some m => if pyStrLt (key m) (key x) then some x else acc

/-- Python `max(l, key=key, default=None)`: first maximal element
(`max` only replaces the current best on a strictly greater key). -/
def pyMaxByKey (key : JVal → String) (l : List JVal) : Option JVal :=
  l.foldl (pyMaxStep key) none

/-- `x.get("reviewed_at", "")` used as the `max` key. Stored review
timestamps are ISO strings; a non-string truthy value would make the
Python comparison raise, so the model reads strings and defaults `""`. -/
def reviewedAtKey (it : JVal) : String :=
  match jGet it "reviewed_at" with
  | some (.str s) => s
  | _ => ""

/-- Aggregate recomputation of `update_chart_review_status_after_item_update`
(lines 874–889) over the unified item list: the chart-level `needs_review`
flag and, when review is complete, the attributed reviewer. -/
def recomputeFromItems (review_items : List JVal) : Bool × Option String :=
  let needs_review := review_items.any (fun it => pyTruthy (jGetD it "needs_review" (.bool false)))
  let reviewed_by :=
    if ¬needs_review ∧ ¬review_items.isEmpty then
      match pyMaxByKey reviewedAtKey
          (review_items.filter (fun it => pyTruthy (jGetD it "reviewed_at" .null))) with
      | some latest =>
          match jGet latest "reviewed_by" with
          | some (.str s) => some s
          | _ => none
      | none => none
    else none
  (needs_review, reviewed_by)

/-! ## Data access layer (`get_review_items`, `get_all_items_unified`,
`find_item_by_name` in `app/services/db_service.py`) -/

/-- An `ExtractedData` row: integer primary key and the JSONB document. -/
structure ExtractedDataRec where
  id : Nat
  data : Document

/-- `if k not in item_copy: item_copy[k] = v`. -/
def addDefault (kvs : List (String × JVal)) (k : String) (v : JVal) :
    List (String × JVal) :=
  if (alLookup kvs k).isSome then kvs else kvs ++ [(k, v)]

/-- Array-layout part of `get_review_items` (lines 691–703): copies of the
matching `review_items` entries with the row id added. -/
def grArrayItems (ed_id : Nat) (data : Document) (get_all_items : Bool) : List JVal :=
  match getArr data "review_items" with
  | some items =>
      items.filterMap (fun it =>
        match it with
        | .obj kvs =>
            if get_all_items || pyTruthy ((alLookup kvs "needs_review").getD (.bool false)) then
              some (.obj (alSet kvs "id" (.num (ed_id : ℚ))))
            else none
        | _ => none)
  | none => []

/-- `{item.get("item_name") for item in ... if item.get("item_name")}`:
the truthy item names. Only string names can ever compare equal to a
string map key, so non-string names (impossible in JSON anyway) are dropped. -/
def truthyStringNames (items : List JVal) : List String :=
  items.filterMap (fun it =>
    match jGet it "item_name" with
    | some (.str s) => if s ≠ "" then some s else none
    | _ => none)

/-- Legacy-layout item conversion of `get_review_items` (lines 747–766). -/
def grLegacyItem (ed_id : Nat) (key : String) (kvs : List (String × JVal)) : JVal :=
  let c := alSet kvs "id" (.num (ed_id : ℚ))
  let c := alSet c "item_name" (.str key)
  let c := addDefault c "threshold" (.num (7/10))
  let c := addDefault c "review_comment" .null
  let c := addDefault c "reviewed_by" .null
  let c := addDefault c "reviewed_at" .null
  let c := addDefault c "error_occurred" (.bool false)
  .obj c

/-- Legacy-layout part of `get_review_items` (lines 733–767). -/
def grLegacyItems (ed_id : Nat) (data : Document) (get_all_items : Bool)
    (items_in_array : List String) : List JVal :=
  data.filterMap (fun kv =>
    if specialKeys.contains kv.1 then none
    else if items_in_array.contains kv.1 then none
    else
      match kv.2 with
      | .obj kvs =>
          if get_all_items || pyTruthy ((alLookup kvs "needs_review").getD (.bool false)) then
            some (grLegacyItem ed_id kv.1 kvs)
          else none
      | _ => none)

/-- String `item_name` values of a list of `{item_name, ...}` dicts. -/
def namedEntryNames (items : List JVal) : List String :=
  items.filterMap (fun it =>
    match jGet it "item_name" with
    | some (.str s) => some s
    | _ => none)

/-- `{item["item_name"]: item.get(textKey) for item in items ...}`. -/
def namedEntryDict (items : List JVal) (textKey : String) : Document :=
  items.foldl (fun acc it =>
    match jGet it "item_name" with
    | some (.str s) => alSet acc s ((jGet it textKey).getD .null)
    | _ => acc) []

/-- Restoration branch of `get_review_items` (lines 769–795), entered when
the legacy scan found nothing: rebuild items from the `raw_items` /
`interpreted_items` mirrors. CPython iterates `item_names` (a set) in an
unspecified order; the model fixes first-occurrence order. -/
def grRestoreItems (ed_id : Nat) (data : Document) (items_in_array : List String) :
    List JVal :=
  let raw_items := (getArr data "raw_items").getD []
  let interpreted_items := (getArr data "interpreted_items").getD []
  let names1 := namedEntryNames raw_items
  let names2 := namedEntryNames interpreted_items
  let item_names := names1 ++ names2.filter (fun s => ¬names1.contains s)
  let raw_dict := namedEntryDict raw_items "raw_text"
  let interpreted_dict := namedEntryDict interpreted_items "interpreted_text"
  item_names.filterMap (fun nm =>
    if items_in_array.contains nm then none
    else
      some (.obj
        [("id", .num (ed_id : ℚ)),
         ("item_name", .str nm),
         ("raw_text", (alLookup raw_dict nm).getD .null),
         ("interpreted_text", (alLookup interpreted_dict nm).getD .null),
         ("similarity_score", .num 1),
         ("confidence_score", .num (8/10)),
         ("needs_review", .bool false),
         ("review_comment", .null),
         ("reviewed_by", .null),
         ("reviewed_at", .null),
         ("error_occurred", .bool false),
         ("threshold", .num (7/10))]))

/-- `get_review_items(db, chart_id, get_all_items)` (lines 672–802):
legacy-layout (or restored) items first, then the array-layout items. -/
def get_review_items (ed : Option ExtractedDataRec) (get_all_items : Bool) :
    List JVal :=
  match ed with
  | none => []
  | some ed =>
      let review_items_from_array := grArrayItems ed.id ed.data get_all_items
      let items_in_array := truthyStringNames review_items_from_array
      let legacy := grLegacyItems ed.id ed.data get_all_items items_in_array
      let legacy :=
        if legacy.isEmpty ∧ get_all_items then
          legacy ++ grRestoreItems ed.id ed.data items_in_array
        else legacy
      legacy ++ review_items_from_array

/-- Normalized 12-key item of `get_all_items_unified` (lines 921–935
and 956–970), keys in dict-literal order. -/
def unifyFromKvs (ed_id : Nat) (nameVal : JVal) (kvs : List (String × JVal)) : JVal :=
  .obj
    [("id", .num (ed_id : ℚ)),
     ("item_name", nameVal),
     ("raw_text", (alLookup kvs "raw_text").getD .null),
     ("interpreted_text", (alLookup kvs "interpreted_text").getD .null),
     ("similarity_score", (alLookup kvs "similarity_score").getD .null),
     ("confidence_score", (alLookup kvs "confidence_score").getD .null),
     ("needs_review", (alLookup kvs "needs_review").getD (.bool false)),
     ("review_comment", (alLookup kvs "review_comment").getD .null),
     ("reviewed_by", (alLookup kvs "reviewed_by").getD .null),
     ("reviewed_at", (alLookup kvs "reviewed_at").getD .null),
     ("threshold", (alLookup kvs "threshold").getD (.num (7/10))),
     ("error_occurred", (alLookup kvs "error_occurred").getD (.bool false))]

/-- `get_all_items_unified(db, chart_id)` (lines 897–974): array-layout
items (truthy `item_name`) first, then non-shadowed legacy-layout items. -/
def get_all_items_unified (ed : Option ExtractedDataRec) : List JVal :=
  match ed with
  | none => []
  | some ed =>
      let fromArray :=
        match getArr ed.data "review_items" with
        | some items =>
            items.filterMap (fun it =>
              match it with
              | .obj kvs =>
                  match alLookup kvs "item_name" with
                  | some v => if pyTruthy v then some (unifyFromKvs ed.id v kvs) else none
                  | none => none
              | _ => none)
        | none => []
      let existing_names := truthyStringNames fromArray
      let legacy := ed.data.filterMap (fun kv =>
        if specialKeys.contains kv.1 then none
        else if existing_names.contains kv.1 then none
        else
          match kv.2 with
          | .obj kvs => some (unifyFromKvs ed.id (.str kv.1) kvs)
          | _ => none)
      fromArray ++ legacy

/-- `find_item_by_name(items, item_name)` (lines 977–988). -/
def find_item_by_name (items : List JVal) (item_name : String) : Option JVal :=
  items.find? (fun it =>
    match jGet it "item_name" with
    | some (.str s) => s = item_name
    | _ => false)

/-! ## Review update endpoint (`app/routers/review.py`, `update_item`) -/

/-- `ItemUpdateRequest` (`app/schemas/chart.py`): `reviewed_by` is required. -/
structure ItemUpdateRequest where
  item_name : String
  interpreted_text : Option String
  review_comment : Option String
  reviewed_by : String
deriving DecidableEq

/-- The field patch applied identically on both update paths
(lines 182–190 and 205–213): optional overrides, then reviewer stamp and
`needs_review = False`. `now` is `datetime.now().isoformat()`. -/
def patchRecord (kvs : List (String × JVal)) (req : ItemUpdateRequest)
    (now : String) : List (String × JVal) :=
  let kvs :=
    match req.interpreted_text with
    | some t => alSet kvs "interpreted_text" (.str t)
    | none => kvs
  let kvs :=
    match req.review_comment with
    | some c => alSet kvs "review_comment" (.str c)
    | none => kvs
  let kvs := alSet kvs "reviewed_by" (.str req.reviewed_by)
  let kvs := alSet kvs "reviewed_at" (.str now)
  alSet kvs "needs_review" (.bool false)

/-- First index whose entry is a dict with `item.get("item_name") == name`. -/
def findIdxByName (items : List JVal) (item_name : String) : Option Nat :=
  items.findIdx? (fun it =>
    match jGet it "item_name" with
    | some (.str s) => s = item_name
    | _ => false)

/-- Step 1 of `update_item` (lines 172–196): locate and patch the field
inside the `review_items` array. -/
def update_item_step1 (data : Document) (req : ItemUpdateRequest) (now : String) :
    Option Document :=
  match getArr data "review_items" with
  | some items =>
      match findIdxByName items req.item_name with
      | some i =>
          match items.get? i with
          | some (.obj kvs) =>
              some (alSet data "review_items"
                (.arr (items.set i (.obj (patchRecord kvs req now)))))
          | _ => none    -- unreachable: `findIdxByName` only matches dicts
      | none => none
  | none => none

/-- Step 2 of `update_item` (lines 198–243): patch the legacy map entry
and mirror the patched record into `review_items` (created when absent). -/
def update_item_step2 (data : Document) (req : ItemUpdateRequest) (now : String) :
    Option Document :=
  match alLookup data req.item_name with
  | some (.obj kvs) =>
      let kvs' := patchRecord kvs req now
      let data1 := alSet data req.item_name (.obj kvs')
      let data2 :=
        if (alLookup data1 "review_items").isNone then
          alSet data1 "review_items" (.arr [])
        else data1
      match alLookup data2 "review_items" with
      | some (.arr items) =>
          -- `review_item = dict(item_data); review_item["item_name"] = item_name`
          let review_item := alSet kvs' "item_name" (.str req.item_name)
          let items' :=
            match findIdxByName items req.item_name with
            | some i => items.set i (.obj review_item)
            | none => items ++ [.obj review_item]
          some (alSet data2 "review_items" (.arr items'))
      | _ => none  -- `review_items` present but not a list: Python raises
  | _ => none      -- Step 3: neither layout contains the field → 500

/-- Steps 1–3 of `update_item` (lines 170–251) acting on the stored
document: try the `review_items` array first, else fall back to the legacy
layout. `none` models the HTTP-500 outcome (`updated` stayed `False`, or
the in-place mutation raised, in which case nothing is committed). -/
def update_item_data (data : Document) (req : ItemUpdateRequest) (now : String) :
    Option Document :=
  match update_item_step1 data req now with
  | some d => some d
  | none => update_item_step2 data req now

/-- The chart columns touched by the review flow. -/
structure ChartRec where
  needs_review : Bool
  reviewed_by : Option String
  reviewed_at : Option String
  overall_confidence_score : Option ℚ

/-- `update_chart_review_status` (`db_service.py`, lines 395–430). -/
def update_chart_review_status (chart : ChartRec) (needs_review : Bool)
    (overall_confidence_score : Option ℚ) (reviewed_by : Option String)
    (now : String) : ChartRec :=
  let chart := { chart with needs_review := needs_review }
  let chart :=
    match overall_confidence_score with
    | some q => { chart with overall_confidence_score := some q }
    | none => chart
  -- `if reviewed_by and not needs_review:` stamp reviewer identity/time
  if (match reviewed_by with | some s => s ≠ "" | none => false) && !needs_review then
    { chart with reviewed_by := reviewed_by, reviewed_at := some now }
  else chart

/-- `update_chart_review_status_after_item_update` (lines 860–894). -/
def update_chart_review_status_after_item_update (chart : ChartRec)
    (ed : Option ExtractedDataRec) (now : String) : ChartRec :=
  let review_items := get_review_items ed true
  let nr_rb := recomputeFromItems review_items
  update_chart_review_status chart nr_rb.1 none nr_rb.2 now

/-- Database state visible to the review endpoint: the chart row and its
extraction-result row (the endpoint addresses a single chart id). -/
structure DBState where
  chart : Option ChartRec
  extracted : Option ExtractedDataRec

/-- The HTTP error outcomes of `update_item`. -/
inductive UpdateError where
  | chartNotFound          -- 404, chart missing
  | extractedDataNotFound  -- 404, extraction result missing
  | itemIdMismatch         -- 404, path id ≠ extraction row id
  | itemNotFound           -- 404, field not in the unified view
  | updateFailed           -- 500, neither layout contained the field
  | retrieveFailed         -- 500, post-commit re-read failed
deriving DecidableEq

/-- `update_item` endpoint (lines 96–302): validations, the document
update, the commit, and the chart-aggregate refresh; returns the HTTP
outcome together with the database state after the request. -/
def update_item (st : DBState) (item_id : Nat) (req : ItemUpdateRequest)
    (now : String) : Except UpdateError Unit × DBState :=
  match st.chart with
  | none => (.error .chartNotFound, st)
  | some chart =>
      match st.extracted with
      | none => (.error .extractedDataNotFound, st)
      | some ed =>
          if ed.id ≠ item_id then (.error .itemIdMismatch, st)
          else
            match find_item_by_name (get_all_items_unified (some ed)) req.item_name with
            | none => (.error .itemNotFound, st)
            | some _ =>
                match update_item_data ed.data req now with
                | none => (.error .updateFailed, st)
                | some data' =>
                    let ed' : ExtractedDataRec := { ed with data := data' }
                    -- `db.commit()`: the field-level write is persisted here
                    match find_item_by_name (get_all_items_unified (some ed'))
                        req.item_name with
                    | none => (.error .retrieveFailed, { st with extracted := some ed' })
                    | some _ =>
                        let chart' :=
                          update_chart_review_status_after_item_update chart
                            (some ed') now
                        (.ok (), { chart := some chart', extracted := some ed' })

/-! ## Basic association-list lemmas -/

theorem alLookup_alSet_self (d : List (String × JVal)) (k : String) (v : JVal) :
    alLookup (alSet d k v) k = some v := by
  induction d with
  | nil => simp [alSet, alLookup]
  | cons kv rest ih =>
      by_cases h : kv.1 = k
      · simp [alSet, alLookup, h]
      · cases kv
        simp_all [alSet, alLookup, h]

theorem alLookup_alSet_ne (d : List (String × JVal)) (k k' : String) (v : JVal)
    (h : k' ≠ k) : alLookup (alSet d k' v) k = alLookup d k := by
  induction d with
  | nil => simp [alSet, alLookup, h]
  | cons kv rest ih =>
      obtain ⟨k0, v0⟩ := kv
      by_cases hk : k0 = k'
      · have h0 : k0 ≠ k := by rw [hk]; exact h
        simp [alSet, alLookup, hk, h0, h]
      · by_cases hk2 : k0 = k <;>
          simp [alSet, alLookup, hk, hk2, ih, h, Ne.symm h]

theorem alLookup_eq_none_of_not_mem (d : List (String × JVal)) (k : String)
    (h : ∀ kv ∈ d, kv.1 ≠ k) : alLookup d k = none := by
  induction d with
  | nil => rfl
  | cons kv rest ih =>
      simp only [alLookup]
      rw [if_neg (h kv (List.mem_cons_self kv rest))]
      exact ih (fun kv' hkv' => h kv' (List.mem_cons_of_mem _ hkv'))

theorem alSet_eq_append_of_not_mem (d : List (String × JVal)) (k : String) (v : JVal)
    (h : ∀ kv ∈ d, kv.1 ≠ k) : alSet d k v = d ++ [(k, v)] := by
  induction d with
  | nil => rfl
  | cons kv rest ih =>
      simp only [alSet]
      rw [if_neg (h kv (List.mem_cons_self kv rest))]
      rw [ih (fun kv' hkv' => h kv' (List.mem_cons_of_mem _ hkv'))]
      rfl

theorem mem_alSet (d : List (String × JVal)) (k : String) (v : JVal)
    (kv : String × JVal) (h : kv ∈ alSet d k v) : kv ∈ d ∨ kv = (k, v) := by
  induction d with
  | nil =>
      simp [alSet] at h
      exact Or.inr h
  | cons kv0 rest ih =>
      by_cases hk : kv0.1 = k
      · cases kv0
        simp only [alSet] at h
        rw [if_pos hk] at h
        rcases List.mem_cons.1 h with h | h
        · subst hk
          exact Or.inr (by simpa using h)
        · exact Or.inl (List.mem_cons_of_mem _ h)
      · cases kv0
        simp only [alSet] at h
        rw [if_neg hk] at h
        rcases List.mem_cons.1 h with h | h
        · exact Or.inl (by simp [h])
        · rcases ih h with h | h
          · exact Or.inl (List.mem_cons_of_mem _ h)
          · exact Or.inr h

theorem alLookup_mem (d : List (String × JVal)) (k : String) (v : JVal)
    (h : alLookup d k = some v) : (k, v) ∈ d := by
  induction d with
  | nil => simp [alLookup] at h
  | cons kv rest ih =>
      simp only [alLookup] at h
      by_cases hk : kv.1 = k
      · rw [if_pos hk] at h
        cases kv
        simp_all
      · rw [if_neg hk] at h
        exact List.mem_cons_of_mem _ (ih h)

/-! ## C2 -/

/-- **C2** — `should_review(textScore, vectorScore, errorOccurred)` returns
`true` exactly when the error flag is set, or either score is absent, or
the text score is strictly below the text threshold (0.8), or the vector
score is strictly below the vector threshold (0.7): a logical OR, so a
field is trusted only when both metrics clear their bar. -/
theorem should_review_iff (ts vs : Option ℚ) (e : Bool) :
    should_review ts vs e = true ↔
      (e = true ∨ ts = none ∨ vs = none ∨
       (∃ s, ts = some s ∧ s < SIMILARITY_THRESHOLD) ∨
       (∃ c, vs = some c ∧ c < CONFIDENCE_THRESHOLD)) := by
  cases e <;> cases ts <;> cases vs <;>
    simp [should_review]

/-! ## C3 -/

/-- **C3** — contrary to the default-field-set fallback documented for an
empty stage-1 result (and to the dead fallback code at
`process_chart.py:54–66`), the guard `if not raw_items:` at line 44 already
catches the empty list: the run terminates `FAILED` with
"Failed to extract raw data from image" and nothing is persisted. -/
theorem run_empty_extraction_fails :
    run_extraction_task true (.ok []) (.ok []) =
      { status := .failed,
        error_message := some "Failed to extract raw data from image",
        saved := none } := rfl

/-! ## C5 -/

/-- **C5 counterexample** — the claim "fields whose Template Item does not
supply a threshold use the defaults 0.8 (text) / 0.7 (vector)" is false:
a field with no matching Template Item gets thresholds 0.85 / 0.90, so at
scores (0.82, 0.80) the code flags review while 0.8/0.7 defaults would
not; and an item supplying none of its three thresholds yields no usable
thresholds at all (the Python comparison raises). -/
theorem selectThresholds_counterexample :
    selectThresholds none = (some (85/100), some (90/100)) ∧
    chartReviewDecision none (82/100) (80/100) = some true ∧
    ¬((82 : ℚ)/100 < 8/10 ∨ (80 : ℚ)/100 < 7/10) ∧
    selectThresholds (some ⟨"主訴", none, none, none⟩) = (none, none) := by
  refine ⟨rfl, ?_, by norm_num, rfl⟩
  have h1 : ((82 : ℚ)/100 < 85/100) := by norm_num
  simp [chartReviewDecision, selectThresholds, h1]

/-- **C5 (amended)** — when a template is associated, the per-field review
decision uses the Template Item's truthy `text_similarity_threshold` /
`vector_similarity_threshold`; a field with no matching Template Item uses
the defaults 0.85 (text) and 0.90 (vector); an item whose stored threshold
is missing or 0 falls back to that item's legacy `confidence_threshold`
(possibly absent, in which case the decision fails). -/
theorem selectThresholds_amended :
    (∀ (item : TemplateItemCfg) (t v ts vs : ℚ),
        item.text_similarity_threshold = some t → t ≠ 0 →
        item.vector_similarity_threshold = some v → v ≠ 0 →
        chartReviewDecision (some item) ts vs =
          some (decide (ts < t) || decide (vs < v))) ∧
    (∀ ts vs : ℚ, chartReviewDecision none ts vs =
        some (decide (ts < 85/100) || decide (vs < 90/100))) ∧
    (∀ (item : TemplateItemCfg),
        qFalsy item.text_similarity_threshold = true →
        qFalsy item.vector_similarity_threshold = true →
        selectThresholds (some item) =
          (item.confidence_threshold, item.confidence_threshold)) := by
  refine ⟨?_, ?_, ?_⟩
  · intro item t v ts vs ht ht0 hv hv0
    simp [chartReviewDecision, selectThresholds, ht, hv, qFalsy, ht0, hv0]
  · intro ts vs
    rfl
  · intro item ht hv
    simp [selectThresholds, ht, hv]

/-- **C5 witness** — the amended rule evaluated at a concrete item that
supplies thresholds 0.6 / 0.5 and scores (0.65, 0.55): no review. -/
theorem selectThresholds_amended_witness :
    chartReviewDecision (some ⟨"主訴", some (6/10), some (5/10), some (7/10)⟩)
      (65/100) (55/100) = some false := by
  have h := selectThresholds_amended.1
    ⟨"主訴", some (6/10), some (5/10), some (7/10)⟩
    (6/10) (5/10) (65/100) (55/100) rfl (by norm_num) rfl (by norm_num)
  rw [h]
  have h1 : ¬((65 : ℚ)/100 < 6/10) := by norm_num
  have h2 : ¬((55 : ℚ)/100 < 5/10) := by norm_num
  simp [h1, h2]

/-! ## C4 / C9 — `convert_to_standard_format` -/

theorem foldl_preserve {α β : Type} (p : α → Prop) (f : α → β → α) (l : List β)
    (init : α) (h0 : p init) (hstep : ∀ a b, p a → p (f a b)) :
    p (l.foldl f init) := by
  induction l generalizing init with
  | nil => exact h0
  | cons b t ih => exact ih _ (hstep _ _ h0)

theorem convert_noop_of_no_review_items (d : Document)
    (h : getArr d "review_items" = none) :
    convert_to_standard_format d = (true, d) := by
  simp [convert_to_standard_format, h]

/-- In the converted output, any value stored under the key
`"review_items"` is an object (it can only come from a folded record named
`"review_items"`), so the output never contains a `review_items` list. -/
theorem convert_snd_no_review_items_arr (d : Document) (items : List JVal)
    (h : getArr d "review_items" = some items) :
    getArr (convert_to_standard_format d).2 "review_items" = none := by
  have hsnd : (convert_to_standard_format d).2 =
      d.foldl (fun acc kv =>
          if kv.1 = "review_items" ∨ (alLookup acc kv.1).isSome then acc
          else alSet acc kv.1 kv.2)
        (items.foldl (fun acc item =>
          match item with
          | .obj kvs =>
              match alLookup kvs "item_name" with
              | some (.str item_name) => alSet acc item_name (.obj (stripItemName kvs))
              | _ => acc
          | _ => acc) []) := by
    simp [convert_to_standard_format, h]
  have hP : ∀ v, ("review_items", v) ∈ (convert_to_standard_format d).2 →
      ∃ kvs, v = JVal.obj kvs := by
    rw [hsnd]
    apply foldl_preserve (fun l => ∀ v, ("review_items", v) ∈ l → ∃ kvs, v = JVal.obj kvs)
    · apply foldl_preserve (fun l => ∀ v, ("review_items", v) ∈ l → ∃ kvs, v = JVal.obj kvs)
      · intro v hv
        simp at hv
      · intro a item ha v hv
        match item with
        | .null | .bool _ | .num _ | .str _ | .arr _ => exact ha v hv
        | .obj kvs =>
            simp only at hv
            cases hnm : alLookup kvs "item_name" with
            | none => rw [hnm] at hv; exact ha v hv
            | some nv =>
                cases nv with
                | str s =>
                    rw [hnm] at hv
                    rcases mem_alSet _ _ _ _ hv with hmem | heq
                    · exact ha v hmem
                    · exact ⟨_, congrArg Prod.snd heq⟩
                | null => rw [hnm] at hv; exact ha v hv
                | bool b => rw [hnm] at hv; exact ha v hv
                | num q => rw [hnm] at hv; exact ha v hv
                | arr xs => rw [hnm] at hv; exact ha v hv
                | obj o => rw [hnm] at hv; exact ha v hv
    · intro a kv ha v hv
      by_cases hc : kv.1 = "review_items" ∨ (alLookup a kv.1).isSome
      · rw [if_pos hc] at hv
        exact ha v hv
      · rw [if_neg hc] at hv
        rcases mem_alSet _ _ _ _ hv with hmem | heq
        · exact ha v hmem
        · exfalso
          apply hc
          left
          have := congrArg Prod.fst heq
          simpa using this.symm
  cases hl : alLookup (convert_to_standard_format d).2 "review_items" with
  | none => simp [getArr, hl]
  | some v =>
      obtain ⟨kvs, rfl⟩ := hP v (alLookup_mem _ _ _ hl)
      simp [getArr, hl]

theorem convert_idem_helper (d : Document) :
    convert_to_standard_format ((convert_to_standard_format d).2) =
      (true, (convert_to_standard_format d).2) := by
  cases h : getArr d "review_items" with
  | none =>
      rw [convert_noop_of_no_review_items d h]
      exact convert_noop_of_no_review_items d h
  | some items =>
      exact convert_noop_of_no_review_items _
        (convert_snd_no_review_items_arr d items h)

/-- **C4 counterexample** — on the legacy-layout-only document
`{"主訴": {"raw_text": "発熱"}}` (no `review_items` key),
`convert_to_standard_format` does not rewrite anything into array layout:
the stored document is returned unchanged and still has no `review_items`
list, contradicting the claimed legacy→array rewrite. -/
theorem convert_legacy_counterexample :
    (convert_to_standard_format [("主訴", .obj [("raw_text", .str "発熱")])]).2 =
      [("主訴", .obj [("raw_text", .str "発熱")])] ∧
    getArr (convert_to_standard_format
      [("主訴", .obj [("raw_text", .str "発熱")])]).2 "review_items" = none :=
  ⟨rfl, rfl⟩

/-- **C4 (amended)** — `convert_to_standard_format` converts in the
opposite direction from the claim: a legacy-layout-only document (one
without a `review_items` list) is "already standard", left completely
unchanged, and the function reports success (`true`); it is array-layout
documents that get rewritten into the legacy map layout. -/
theorem convert_legacy_is_noop (d : Document)
    (h : getArr d "review_items" = none) :
    convert_to_standard_format d = (true, d) :=
  convert_noop_of_no_review_items d h

/-- **C4 witness** — the no-op result on the concrete legacy document. -/
theorem convert_legacy_is_noop_witness :
    convert_to_standard_format [("主訴", .obj [("raw_text", .str "発熱")])] =
      (true, [("主訴", .obj [("raw_text", .str "発熱")])]) :=
  convert_legacy_is_noop [("主訴", .obj [("raw_text", .str "発熱")])] rfl

/-- **C9 counterexample** — `convert_to_standard_format` applied to the
already-canonical (array-layout) document
`{"review_items": [{"item_name": "主訴", "raw_text": "発熱"}], "template_id": null}`
is not a no-op: the array is flattened away into the legacy map layout. -/
theorem convert_canonical_not_noop :
    (convert_to_standard_format
        [("review_items", .arr [.obj [("item_name", .str "主訴"),
                                      ("raw_text", .str "発熱")]]),
         ("template_id", .null)]).2 =
      [("主訴", .obj [("raw_text", .str "発熱")]), ("template_id", .null)] ∧
    (convert_to_standard_format
        [("review_items", .arr [.obj [("item_name", .str "主訴"),
                                      ("raw_text", .str "発熱")]]),
         ("template_id", .null)]).2 ≠
      [("review_items", .arr [.obj [("item_name", .str "主訴"),
                                    ("raw_text", .str "発熱")]]),
       ("template_id", .null)] := by
  refine ⟨rfl, ?_⟩
  intro hcontra
  have h2 := congrArg (fun l => alLookup l "review_items") hcontra
  simp [alLookup] at h2

/-- **C9 (amended)** — `convert_to_standard_format` is idempotent:
applying it twice yields the same document (and result `true`) as applying
it once; and it is a no-op returning `true` on any document already in the
legacy/standard layout, i.e. without a `review_items` list (rather than on
canonical array-layout documents, which it rewrites). -/
theorem convert_idem_and_standard_noop :
    (∀ d : Document,
        convert_to_standard_format ((convert_to_standard_format d).2) =
          (true, (convert_to_standard_format d).2)) ∧
    (∀ d : Document, getArr d "review_items" = none →
        convert_to_standard_format d = (true, d)) :=
  ⟨convert_idem_helper, convert_noop_of_no_review_items⟩

/-- **C9 witness** — idempotence and the standard-layout no-op evaluated
on concrete documents. -/
theorem convert_idem_and_standard_noop_witness :
    convert_to_standard_format ((convert_to_standard_format
        [("review_items", .arr [.obj [("item_name", .str "主訴"),
                                      ("raw_text", .str "発熱")]])]).2) =
      (true, [("主訴", .obj [("raw_text", .str "発熱")])]) ∧
    convert_to_standard_format [("現病歴", .obj [("raw_text", .str "咳嗽")])] =
      (true, [("現病歴", .obj [("raw_text", .str "咳嗽")])]) :=
  ⟨convert_idem_and_standard_noop.1
      [("review_items", .arr [.obj [("item_name", .str "主訴"),
                                    ("raw_text", .str "発熱")]])],
   convert_idem_and_standard_noop.2 [("現病歴", .obj [("raw_text", .str "咳嗽")])] rfl⟩

/-! ## C6 — `update_chart_review_status_after_item_update` aggregate -/

theorem pyMax_foldl_le (key : JVal → String) (l : List JVal) (m : JVal)
    (h : ∀ y ∈ l, pyStrLt (key m) (key y) = false) :
    l.foldl (pyMaxStep key) (some m) = some m := by
  induction l with
  | nil => rfl
  | cons b t ih =>
      simp only [List.foldl, pyMaxStep]
      rw [h b (List.mem_cons_self b t)]
      exact ih (fun y hy => h y (List.mem_cons_of_mem _ hy))

theorem pyMax_foldl_reach (key : JVal → String) (l : List JVal) :
    ∀ (m x : JVal) (i : Nat), l.get? i = some x →
      pyStrLt (key m) (key x) = true →
      (∀ j y, j < i → l.get? j = some y → pyStrLt (key y) (key x) = true) →
      (∀ y ∈ l, pyStrLt (key x) (key y) = false) →
      l.foldl (pyMaxStep key) (some m) = some x := by
  induction l with
  | nil => intro m x i h _ _ _; simp at h
  | cons b t ih =>
      intro m x i hi hm hpre hle
      cases i with
      | zero =>
          simp only [List.get?] at hi
          injection hi with hi
          subst hi
          simp only [List.foldl, pyMaxStep]
          rw [if_pos hm]
          exact pyMax_foldl_le key t b (fun y hy => hle y (List.mem_cons_of_mem _ hy))
      | succ i' =>
          have hb : pyStrLt (key b) (key x) = true := hpre 0 b (Nat.succ_pos i') rfl
          simp only [List.foldl, pyMaxStep]
          by_cases hmb : pyStrLt (key m) (key b) = true
          · rw [if_pos hmb]
            exact ih b x i' hi hb
              (fun j y hj hy => hpre (j + 1) y (Nat.succ_lt_succ hj) hy)
              (fun y hy => hle y (List.mem_cons_of_mem _ hy))
          · rw [if_neg hmb]
            exact ih m x i' hi hm
              (fun j y hj hy => hpre (j + 1) y (Nat.succ_lt_succ hj) hy)
              (fun y hy => hle y (List.mem_cons_of_mem _ hy))

/-- A first maximal element (strictly above everything before it, never
below anything in the list) is what Python's `max` returns. -/
theorem pyMaxByKey_spec (key : JVal → String) (l : List JVal) (i : Nat) (x : JVal)
    (hi : l.get? i = some x)
    (hpre : ∀ j y, j < i → l.get? j = some y → pyStrLt (key y) (key x) = true)
    (hle : ∀ y ∈ l, pyStrLt (key x) (key y) = false) :
    pyMaxByKey key l = some x := by
  cases l with
  | nil => simp at hi
  | cons b t =>
      show (b :: t).foldl (pyMaxStep key) none = some x
      simp only [List.foldl]
      show t.foldl (pyMaxStep key) (some b) = some x
      cases i with
      | zero =>
          simp only [List.get?] at hi
          injection hi with hi
          subst hi
          exact pyMax_foldl_le key t b (fun y hy => hle y (List.mem_cons_of_mem _ hy))
      | succ i' =>
          have hb : pyStrLt (key b) (key x) = true := hpre 0 b (Nat.succ_pos i') rfl
          exact pyMax_foldl_reach key t b x i' hi hb
            (fun j y hj hy => hpre (j + 1) y (Nat.succ_lt_succ hj) hy)
            (fun y hy => hle y (List.mem_cons_of_mem _ hy))

/-- **C6 counterexample** — two fully-reviewed records with the *same*
(latest) `reviewed_at` timestamp, `"alice"` first-seen and `"bob"`
last-seen: Python's `max` keeps the first maximal element, so the
aggregate attributes the review to `"alice"`, not to the last-seen
`"bob"` that the claim's tie-break predicts. -/
theorem recompute_tie_counterexample :
    (recomputeFromItems
      [.obj [("item_name", .str "主訴"), ("needs_review", .bool false),
             ("reviewed_by", .str "alice"),
             ("reviewed_at", .str "2024-01-01T00:00:00")],
       .obj [("item_name", .str "現病歴"), ("needs_review", .bool false),
             ("reviewed_by", .str "bob"),
             ("reviewed_at", .str "2024-01-01T00:00:00")]]).1 = false ∧
    (recomputeFromItems
      [.obj [("item_name", .str "主訴"), ("needs_review", .bool false),
             ("reviewed_by", .str "alice"),
             ("reviewed_at", .str "2024-01-01T00:00:00")],
       .obj [("item_name", .str "現病歴"), ("needs_review", .bool false),
             ("reviewed_by", .str "bob"),
             ("reviewed_at", .str "2024-01-01T00:00:00")]]).2 = some "alice" ∧
    (some "alice" : Option String) ≠ some "bob" :=
  ⟨rfl, rfl, by simp⟩

/-- **C6 (amended)** — the aggregate's `needsReview` is the OR over the
records' `needs_review` flags (so the empty list yields `false`), and when
`needsReview` is false, `reviewedBy` is the `reviewed_by` of the record
with the latest truthy `reviewed_at` among those carrying one, with ties
broken by *first*-seen order (Python's `max` keeps the first maximum). -/
theorem recompute_aggregate_amended :
    (∀ items : List JVal, (recomputeFromItems items).1 =
        items.any (fun it => pyTruthy (jGetD it "needs_review" (.bool false)))) ∧
    recomputeFromItems [] = (false, none) ∧
    (∀ (items : List JVal) (i : Nat) (x : JVal),
        (recomputeFromItems items).1 = false →
        (items.filter (fun it => pyTruthy (jGetD it "reviewed_at" .null))).get? i =
          some x →
        (∀ j y, j < i →
          (items.filter (fun it => pyTruthy (jGetD it "reviewed_at" .null))).get? j =
            some y →
          pyStrLt (reviewedAtKey y) (reviewedAtKey x) = true) →
        (∀ y ∈ items.filter (fun it => pyTruthy (jGetD it "reviewed_at" .null)),
          pyStrLt (reviewedAtKey x) (reviewedAtKey y) = false) →
        (recomputeFromItems items).2 =
          match jGet x "reviewed_by" with
          | some (.str s) => some s
          | _ => none) := by
  refine ⟨fun items => rfl, rfl, ?_⟩
  intro items i x hnr hget hpre hle
  have hne : items.isEmpty = false := by
    cases items with
    | nil => simp at hget
    | cons _ _ => rfl
  have hmax := pyMaxByKey_spec reviewedAtKey
    (items.filter (fun it => pyTruthy (jGetD it "reviewed_at" .null))) i x hget hpre hle
  have hany : items.any (fun it => pyTruthy (jGetD it "needs_review" (.bool false))) =
      false := hnr
  show (if ¬(items.any fun it => pyTruthy (jGetD it "needs_review" (.bool false))) ∧
        ¬items.isEmpty then _ else none) = _
  rw [if_pos ⟨by simp [hany], by simp [hne]⟩, hmax]

/-- **C6 witness** — concrete evaluation of the amended aggregate: with
`"alice"` at `2024-01-01` and `"bob"` at the strictly later `2024-01-02`,
the reviewer attribution is `"bob"`. -/
theorem recompute_aggregate_amended_witness :
    (recomputeFromItems
      [.obj [("item_name", .str "主訴"), ("needs_review", .bool false),
             ("reviewed_by", .str "alice"),
             ("reviewed_at", .str "2024-01-01T00:00:00")],
       .obj [("item_name", .str "現病歴"), ("needs_review", .bool false),
             ("reviewed_by", .str "bob"),
             ("reviewed_at", .str "2024-01-02T00:00:00")]]).2 = some "bob" := by
  have h := recompute_aggregate_amended.2.2
    [.obj [("item_name", .str "主訴"), ("needs_review", .bool false),
           ("reviewed_by", .str "alice"),
           ("reviewed_at", .str "2024-01-01T00:00:00")],
     .obj [("item_name", .str "現病歴"), ("needs_review", .bool false),
           ("reviewed_by", .str "bob"),
           ("reviewed_at", .str "2024-01-02T00:00:00")]]
    1
    (.obj [("item_name", .str "現病歴"), ("needs_review", .bool false),
           ("reviewed_by", .str "bob"),
           ("reviewed_at", .str "2024-01-02T00:00:00")])
    rfl rfl
    (by
      intro j y hj hy
      have hj0 : j = 0 := Nat.lt_one_iff.1 hj
      subst hj0
      simp only [List.filter, List.get?] at hy
      injection hy with hy
      subst hy
      rfl)
    (by
      intro y hy
      simp only [List.filter] at hy
      rcases List.mem_cons.1 hy with rfl | hy
      · rfl
      · rcases List.mem_cons.1 hy with rfl | hy
        · rfl
        · simp at hy)
  rw [h]
  rfl

/-! ## C7 — legacy-path review update mirrors into `review_items` -/

/-- **C7** — for a document whose field `req.item_name` exists only in the
legacy map layout (the `review_items` array is absent, or present without
that field), a successful review update patches the legacy entry *and*
mirrors the patched record (with `item_name` added) into `review_items`,
creating the array when it was absent: afterwards the document holds the
field in both layouts with matching content. -/
theorem update_legacy_mirrors (data : Document) (req : ItemUpdateRequest)
    (now : String) (kvs : List (String × JVal))
    (hleg : alLookup data req.item_name = some (.obj kvs))
    (harr : alLookup data "review_items" = none ∨
            ∃ items, alLookup data "review_items" = some (.arr items) ∧
                     findIdxByName items req.item_name = none) :
    ∃ d', update_item_data data req now = some d' ∧
      alLookup d' req.item_name = some (.obj (patchRecord kvs req now)) ∧
      ∃ items', getArr d' "review_items" = some items' ∧
        JVal.obj (alSet (patchRecord kvs req now) "item_name" (.str req.item_name))
          ∈ items' := by
  have hne : req.item_name ≠ "review_items" := by
    intro hc
    rw [hc] at hleg
    rcases harr with h0 | ⟨items, hitems, _⟩
    · rw [h0] at hleg
      exact Option.noConfusion hleg
    · rw [hitems] at hleg
      injection hleg with hleg
      exact JVal.noConfusion hleg
  have hstep1 : update_item_step1 data req now = none := by
    rcases harr with h0 | ⟨items, hitems, hfind⟩
    · simp [update_item_step1, getArr, h0]
    · simp [update_item_step1, getArr, hitems, hfind]
  have hlook1 : alLookup (alSet data req.item_name
      (.obj (patchRecord kvs req now))) "review_items" =
      alLookup data "review_items" := alLookup_alSet_ne _ _ _ _ hne
  rcases harr with h0 | ⟨items, hitems, hfind⟩
  · -- `review_items` absent: the array is created with just the mirror
    have hdata2 : (if (alLookup (alSet data req.item_name
          (.obj (patchRecord kvs req now))) "review_items").isNone then
            alSet (alSet data req.item_name (.obj (patchRecord kvs req now)))
              "review_items" (.arr [])
          else alSet data req.item_name (.obj (patchRecord kvs req now))) =
        alSet (alSet data req.item_name (.obj (patchRecord kvs req now)))
          "review_items" (.arr []) := by
      rw [hlook1, h0]
      rfl
    refine ⟨alSet (alSet (alSet data req.item_name (.obj (patchRecord kvs req now)))
        "review_items" (.arr []))
        "review_items"
        (.arr ([] ++ [.obj (alSet (patchRecord kvs req now) "item_name"
          (.str req.item_name))])), ?_, ?_, ?_⟩
    · unfold update_item_data
      rw [hstep1]
      unfold update_item_step2
      rw [hleg]
      dsimp only
      rw [hdata2, alLookup_alSet_self]
      rfl
    · rw [alLookup_alSet_ne _ _ _ _ (Ne.symm hne)]
      rw [alLookup_alSet_ne _ _ _ _ (Ne.symm hne)]
      exact alLookup_alSet_self _ _ _
    · refine ⟨[] ++ [JVal.obj (alSet (patchRecord kvs req now) "item_name"
          (.str req.item_name))], ?_, ?_⟩
      · simp [getArr, alLookup_alSet_self]
      · simp
  · -- `review_items` present without the field: the mirror is appended
    have hdata2 : (if (alLookup (alSet data req.item_name
          (.obj (patchRecord kvs req now))) "review_items").isNone then
            alSet (alSet data req.item_name (.obj (patchRecord kvs req now)))
              "review_items" (.arr [])
          else alSet data req.item_name (.obj (patchRecord kvs req now))) =
        alSet data req.item_name (.obj (patchRecord kvs req now)) := by
      rw [hlook1, hitems]
      rfl
    refine ⟨alSet (alSet data req.item_name (.obj (patchRecord kvs req now)))
        "review_items"
        (.arr (items ++ [.obj (alSet (patchRecord kvs req now) "item_name"
          (.str req.item_name))])), ?_, ?_, ?_⟩
    · unfold update_item_data
      rw [hstep1]
      unfold update_item_step2
      rw [hleg]
      dsimp only
      rw [hdata2, hlook1, hitems]
      dsimp only
      rw [hfind]
    · rw [alLookup_alSet_ne _ _ _ _ (Ne.symm hne)]
      exact alLookup_alSet_self _ _ _
    · refine ⟨items ++ [JVal.obj (alSet (patchRecord kvs req now) "item_name"
          (.str req.item_name))], ?_, ?_⟩
      · simp [getArr, alLookup_alSet_self]
      · simp

/-- **C7 witness** — the spec scenario: updating field `"主訴"` on a
legacy-layout document with no prior `review_items` creates the array and
mirrors the patched record into it. -/
theorem update_legacy_mirrors_witness :
    ∃ d', update_item_data
        [("主訴", .obj [("raw_text", .str "発熱"),
                        ("interpreted_text", .str "発熱"),
                        ("needs_review", .bool true)])]
        ⟨"主訴", some "発熱(修正)", none, "dr-tanaka"⟩ "2024-06-01T09:00:00" =
        some d' ∧
      alLookup d' "主訴" = some (.obj (patchRecord
        [("raw_text", .str "発熱"), ("interpreted_text", .str "発熱"),
         ("needs_review", .bool true)]
        ⟨"主訴", some "発熱(修正)", none, "dr-tanaka"⟩ "2024-06-01T09:00:00")) ∧
      ∃ items', getArr d' "review_items" = some items' ∧
        JVal.obj (alSet (patchRecord
          [("raw_text", .str "発熱"), ("interpreted_text", .str "発熱"),
           ("needs_review", .bool true)]
          ⟨"主訴", some "発熱(修正)", none, "dr-tanaka"⟩ "2024-06-01T09:00:00")
          "item_name" (.str "主訴")) ∈ items' :=
  update_legacy_mirrors
    [("主訴", .obj [("raw_text", .str "発熱"),
                    ("interpreted_text", .str "発熱"),
                    ("needs_review", .bool true)])]
    ⟨"主訴", some "発熱(修正)", none, "dr-tanaka"⟩ "2024-06-01T09:00:00"
    [("raw_text", .str "発熱"), ("interpreted_text", .str "発熱"),
     ("needs_review", .bool true)]
    rfl (Or.inl rfl)

/-! ## C8 — failed review updates mutate nothing -/

/-- **C8** — when `update_item` fails because the chart, the extraction
result, or the named field does not exist (or because neither layout could
be patched), the database state is unchanged; and the chart aggregate is
written only after the field-level write succeeded: whenever the stored
chart changes, the stored document was successfully replaced by the
patched document first and the new chart row is the aggregate recomputed
from that updated document. -/
theorem update_item_no_partial_writes (st : DBState) (item_id : Nat)
    (req : ItemUpdateRequest) (now : String) :
    ((update_item st item_id req now).1 = .error .chartNotFound ∨
     (update_item st item_id req now).1 = .error .extractedDataNotFound ∨
     (update_item st item_id req now).1 = .error .itemNotFound ∨
     (update_item st item_id req now).1 = .error .updateFailed →
     (update_item st item_id req now).2 = st) ∧
    ((update_item st item_id req now).2.chart ≠ st.chart →
     ∃ chart ed data',
       st.chart = some chart ∧ st.extracted = some ed ∧
       update_item_data ed.data req now = some data' ∧
       (update_item st item_id req now).1 = .ok () ∧
       (update_item st item_id req now).2.extracted = some ⟨ed.id, data'⟩ ∧
       (update_item st item_id req now).2.chart =
         some (update_chart_review_status_after_item_update chart
           (some ⟨ed.id, data'⟩) now)) := by
  cases hchart : st.chart with
  | none =>
      refine ⟨fun _ => by simp [update_item, hchart], fun hne => ?_⟩
      exact absurd (by simp [update_item, hchart]) hne
  | some chart =>
      cases hed : st.extracted with
      | none =>
          refine ⟨fun _ => by simp [update_item, hchart, hed], fun hne => ?_⟩
          exact absurd (by simp [update_item, hchart, hed]) hne
      | some ed =>
          by_cases hid : ed.id ≠ item_id
          · refine ⟨fun _ => by simp [update_item, hchart, hed, hid], fun hne => ?_⟩
            exact absurd (by simp [update_item, hchart, hed, hid]) hne
          · cases hfind : find_item_by_name (get_all_items_unified (some ed))
                req.item_name with
            | none =>
                refine ⟨fun _ => by simp [update_item, hchart, hed, hid, hfind],
                  fun hne => ?_⟩
                exact absurd (by simp [update_item, hchart, hed, hid, hfind]) hne
            | some it =>
                cases hupd : update_item_data ed.data req now with
                | none =>
                    refine ⟨fun _ =>
                        by simp [update_item, hchart, hed, hid, hfind, hupd],
                      fun hne => ?_⟩
                    exact absurd
                      (by simp [update_item, hchart, hed, hid, hfind, hupd]) hne
                | some dataNew =>
                    cases hfind2 : find_item_by_name
                        (get_all_items_unified (some { ed with data := dataNew }))
                        req.item_name with
                    | none =>
                        refine ⟨fun herr => ?_, fun hne => ?_⟩
                        · exfalso
                          simp [update_item, hchart, hed, hid, hfind, hupd,
                            hfind2] at herr
                        · exact absurd
                            (by simp [update_item, hchart, hed, hid, hfind, hupd,
                              hfind2]) hne
                    | some it2 =>
                        refine ⟨fun herr => ?_, fun _ => ?_⟩
                        · exfalso
                          simp [update_item, hchart, hed, hid, hfind, hupd,
                            hfind2] at herr
                        · refine ⟨chart, ed, dataNew, rfl, rfl, hupd, ?_, ?_, ?_⟩
                          · simp [update_item, hchart, hed, hid, hfind, hupd, hfind2]
                          · simp [update_item, hchart, hed, hid, hfind, hupd, hfind2]
                          · simp [update_item, hchart, hed, hid, hfind, hupd, hfind2]

/-- **C8 witness** — a request against an empty database (no chart row)
fails with `ChartNotFound` and leaves the state untouched. -/
theorem update_item_no_partial_writes_witness :
    (update_item ⟨none, none⟩ 1 ⟨"主訴", none, none, "dr-tanaka"⟩
      "2024-06-01T09:00:00").2 = ⟨none, none⟩ :=
  (update_item_no_partial_writes ⟨none, none⟩ 1 ⟨"主訴", none, none, "dr-tanaka"⟩
    "2024-06-01T09:00:00").1 (Or.inl rfl)

/-! ## C1 / C10 — structure of the orchestrator-built document -/

theorem osSet_fst_mem (d : List (String × Option String)) (k : String)
    (v : Option String) (a : String) (h : a ∈ (osSet d k v).map Prod.fst) :
    a ∈ d.map Prod.fst ∨ a = k := by
  induction d with
  | nil =>
      simp [osSet] at h
      exact Or.inr h
  | cons kv rest ih =>
      obtain ⟨k0, v0⟩ := kv
      by_cases hk : k0 = k
      · simp only [osSet, if_pos hk, List.map_cons, List.mem_cons] at h
        rcases h with h | h
        · exact Or.inl (by simp [h])
        · exact Or.inl (by simp [h])
      · simp only [osSet, if_neg hk, List.map_cons, List.mem_cons] at h
        rcases h with h | h
        · exact Or.inl (by simp [h])
        · rcases ih h with h | h
          · exact Or.inl (by simp [h])
          · exact Or.inr h

theorem osSet_fst_nodup (d : List (String × Option String)) (k : String)
    (v : Option String) (h : (d.map Prod.fst).Nodup) :
    ((osSet d k v).map Prod.fst).Nodup := by
  induction d with
  | nil => simp [osSet]
  | cons kv rest ih =>
      obtain ⟨k0, v0⟩ := kv
      simp only [List.map_cons, List.nodup_cons] at h
      by_cases hk : k0 = k
      · simp only [osSet, if_pos hk, List.map_cons, List.nodup_cons]
        exact ⟨h.1, h.2⟩
      · simp only [osSet, if_neg hk, List.map_cons, List.nodup_cons]
        refine ⟨?_, ih h.2⟩
        intro hc
        rcases osSet_fst_mem rest k v k0 hc with hc | hc
        · exact h.1 hc
        · exact hk hc

theorem buildRawDict_fst_nodup (l : List RawItem) :
    ((buildRawDict l).map Prod.fst).Nodup := by
  unfold buildRawDict
  exact foldl_preserve (fun d => (d.map Prod.fst).Nodup) _ _ [] (by simp)
    (fun a (b : RawItem) h => osSet_fst_nodup a b.item_name b.raw_text h)

theorem buildInterpDict_fst_nodup (l : List InterpItem) :
    ((buildInterpDict l).map Prod.fst).Nodup := by
  unfold buildInterpDict
  exact foldl_preserve (fun d => (d.map Prod.fst).Nodup) _ _ [] (by simp)
    (fun a (b : InterpItem) h => osSet_fst_nodup a b.item_name b.interpreted_text h)

theorem unionKeys_nodup (r i : List (String × Option String))
    (hr : (r.map Prod.fst).Nodup) (hi : (i.map Prod.fst).Nodup) :
    (unionKeys r i).Nodup := by
  unfold unionKeys
  refine List.Nodup.append hr (hi.filter _) ?_
  intro a ha hb
  rw [List.mem_filter] at hb
  have hb2 := hb.2
  simp only [decide_eq_true_eq] at hb2
  exact hb2 (List.elem_eq_true_of_mem ha)

theorem processKeys_nodup (raw_items : List RawItem)
    (interpreted_items : List InterpItem) :
    (processKeys raw_items interpreted_items).Nodup := by
  unfold processKeys
  by_cases h : (unionKeys (buildRawDict raw_items)
      (buildInterpDict interpreted_items)).isEmpty
  · rw [if_pos h]
    decide
  · rw [if_neg h]
    exact unionKeys_nodup _ _ (buildRawDict_fst_nodup raw_items)
      (buildInterpDict_fst_nodup interpreted_items)

theorem processKeys_ne_nil (raw_items : List RawItem)
    (interpreted_items : List InterpItem) :
    processKeys raw_items interpreted_items ≠ [] := by
  unfold processKeys
  by_cases h : (unionKeys (buildRawDict raw_items)
      (buildInterpDict interpreted_items)).isEmpty
  · rw [if_pos h]
    decide
  · rw [if_neg h]
    intro hc
    rw [hc] at h
    exact h rfl

theorem processRecords_fst (raw_items : List RawItem)
    (interpreted_items : List InterpItem) :
    (processRecords raw_items interpreted_items).map Prod.fst =
      processKeys raw_items interpreted_items := by
  unfold processRecords
  rw [List.map_map]
  exact List.map_id _

theorem alLookup_eq_of_mem_nodup (d : List (String × JVal)) (k : String) (v : JVal)
    (hn : (d.map Prod.fst).Nodup) (hm : (k, v) ∈ d) :
    alLookup d k = some v := by
  induction d with
  | nil => simp at hm
  | cons kv rest ih =>
      obtain ⟨k0, v0⟩ := kv
      simp only [List.map_cons, List.nodup_cons] at hn
      rcases List.mem_cons.1 hm with hm | hm
      · injection hm with h1 h2
        subst h1
        subst h2
        simp [alLookup]
      · have hk : k0 ≠ k := by
          intro hc
          subst hc
          exact hn.1 (by exact List.mem_map.2 ⟨(k0, v), hm, rfl⟩)
        simp only [alLookup, if_neg hk]
        exact ih hn.2 hm

/-- The document built by `process_extracted_items`, in explicit form. -/
theorem process_doc_spec (raw_items : List RawItem)
    (interpreted_items : List InterpItem) :
    (process_extracted_items raw_items interpreted_items).1 =
      alSet (alSet (alSet (alSet (alSet
        (processFields raw_items interpreted_items)
        "review_items" (.arr (processReviewItems raw_items interpreted_items)))
        "template_id" .null)
        "template_name" .null)
        "raw_items" (.arr (processRawItemsOut raw_items interpreted_items)))
        "interpreted_items" (.arr (processInterpItemsOut raw_items interpreted_items)) :=
  rfl

theorem process_getArr_review_items (raw_items : List RawItem)
    (interpreted_items : List InterpItem) :
    getArr (process_extracted_items raw_items interpreted_items).1 "review_items" =
      some (processReviewItems raw_items interpreted_items) := by
  unfold getArr
  rw [process_doc_spec,
    alLookup_alSet_ne _ _ _ _ (by decide),
    alLookup_alSet_ne _ _ _ _ (by decide),
    alLookup_alSet_ne _ _ _ _ (by decide),
    alLookup_alSet_ne _ _ _ _ (by decide),
    alLookup_alSet_self]

theorem process_getArr_raw_items (raw_items : List RawItem)
    (interpreted_items : List InterpItem) :
    getArr (process_extracted_items raw_items interpreted_items).1 "raw_items" =
      some (processRawItemsOut raw_items interpreted_items) := by
  unfold getArr
  rw [process_doc_spec,
    alLookup_alSet_ne _ _ _ _ (by decide),
    alLookup_alSet_self]

theorem process_getArr_interpreted_items (raw_items : List RawItem)
    (interpreted_items : List InterpItem) :
    getArr (process_extracted_items raw_items interpreted_items).1
      "interpreted_items" =
      some (processInterpItemsOut raw_items interpreted_items) := by
  unfold getArr
  rw [process_doc_spec, alLookup_alSet_self]

theorem process_lookup_field (raw_items : List RawItem)
    (interpreted_items : List InterpItem) (k : String)
    (hk : ¬ k ∈ specialKeys) :
    alLookup (process_extracted_items raw_items interpreted_items).1 k =
      alLookup (processFields raw_items interpreted_items) k := by
  simp only [specialKeys, List.mem_cons, List.not_mem_nil, or_false,
    not_or] at hk
  obtain ⟨h1, h2, h3, h4, h5⟩ := hk
  rw [process_doc_spec,
    alLookup_alSet_ne _ _ _ _ (Ne.symm h2),
    alLookup_alSet_ne _ _ _ _ (Ne.symm h1),
    alLookup_alSet_ne _ _ _ _ (Ne.symm h4),
    alLookup_alSet_ne _ _ _ _ (Ne.symm h3),
    alLookup_alSet_ne _ _ _ _ (Ne.symm h5)]

/-- Stage-2 total failure yields records whose interpreted text is the raw
text, with the error and review flags forced. -/
theorem calcField_no_interp (rd : List (String × Option String)) (k : String) :
    calcField rd [] k =
      { raw_text := osGet rd k, interpreted_text := osGet rd k,
        similarity_score := 0, confidence_score := 0,
        needs_review := true, error_occurred := true } := by
  unfold calcField
  cases h : osGet rd k <;>
    simp [h, osGet, osLookup, should_review]

theorem processFields_fst (raw_items : List RawItem)
    (interpreted_items : List InterpItem) :
    (processFields raw_items interpreted_items).map Prod.fst =
      processKeys raw_items interpreted_items := by
  unfold processFields
  rw [List.map_map]
  exact processRecords_fst raw_items interpreted_items

/-- **C1** — when stage 2 (interpretation) fails after exhausting its
retries while stage 1 succeeded (non-empty result), the run does not
terminate `FAILED`: the terminal status is `PARTIAL_SUCCESS`, a document
is persisted with the chart's `needs_review` forced `true`, and every
Field Record in its `review_items` carries `error_occurred = true`,
`needs_review = true`, and its `raw_text` as the stand-in
`interpreted_text`. -/
theorem stage2_exhausted_partial_success (raw_items : List RawItem) (e : String)
    (hne : raw_items ≠ []) :
    run_extraction_task true (.ok raw_items) (.error e) =
      { status := .partialSuccess,
        error_message := some ("Text interpretation failed: " ++ e),
        saved := some ((process_extracted_items raw_items []).1,
                       (process_extracted_items raw_items []).2.2, true) } ∧
    getArr (process_extracted_items raw_items []).1 "review_items" =
      some (processReviewItems raw_items []) ∧
    processReviewItems raw_items [] ≠ [] ∧
    ∀ it ∈ processReviewItems raw_items [],
      jGet it "error_occurred" = some (.bool true) ∧
      jGet it "needs_review" = some (.bool true) ∧
      jGet it "interpreted_text" = jGet it "raw_text" := by
  refine ⟨?_, process_getArr_review_items raw_items [], ?_, ?_⟩
  · rcases raw_items with _ | ⟨a, t⟩
    · exact absurd rfl hne
    · rfl
  · intro hc
    simp only [processReviewItems, processRecords, List.map_eq_nil_iff] at hc
    exact processKeys_ne_nil raw_items [] hc
  · intro it hit
    simp only [processReviewItems, List.mem_map] at hit
    obtain ⟨kc, hkc, rfl⟩ := hit
    simp only [processRecords, List.mem_map] at hkc
    obtain ⟨k, _, rfl⟩ := hkc
    have hcalc : calcField (buildRawDict raw_items) (buildInterpDict []) k =
        { raw_text := osGet (buildRawDict raw_items) k,
          interpreted_text := osGet (buildRawDict raw_items) k,
          similarity_score := 0, confidence_score := 0,
          needs_review := true, error_occurred := true } :=
      calcField_no_interp (buildRawDict raw_items) k
    refine ⟨?_, ?_, ?_⟩ <;> simp [hcalc, fieldRecord, jGet, alLookup]

/-- **C1 witness** — the scenario at a concrete one-field extraction with
a concrete stage-2 exception message. -/
theorem stage2_exhausted_partial_success_witness :
    run_extraction_task true (.ok [⟨"主訴", some "頭痛"⟩]) (.error "quota exceeded") =
      { status := .partialSuccess,
        error_message := some ("Text interpretation failed: " ++ "quota exceeded"),
        saved := some ((process_extracted_items [⟨"主訴", some "頭痛"⟩] []).1,
                       (process_extracted_items [⟨"主訴", some "頭痛"⟩] []).2.2,
                       true) } ∧
    getArr (process_extracted_items [⟨"主訴", some "頭痛"⟩] []).1 "review_items" =
      some (processReviewItems [⟨"主訴", some "頭痛"⟩] []) ∧
    processReviewItems [⟨"主訴", some "頭痛"⟩] [] ≠ [] ∧
    ∀ it ∈ processReviewItems [⟨"主訴", some "頭痛"⟩] [],
      jGet it "error_occurred" = some (.bool true) ∧
      jGet it "needs_review" = some (.bool true) ∧
      jGet it "interpreted_text" = jGet it "raw_text" :=
  stage2_exhausted_partial_success [⟨"主訴", some "頭痛"⟩] "quota exceeded" (by simp)

/-- **C10** — every ExtractionResult document built by a default
(non-template) run carries each field name in both layouts at once: as a
top-level legacy-map key holding the record, and as a `review_items` entry
holding the same record content plus `item_name`; the document also
carries `raw_items` / `interpreted_items` mirrors with one entry per
field. (Hypothesis: no extracted field is named like one of the five
special top-level keys, which the legacy map cannot represent.) -/
theorem default_doc_dual_layout (raw_items : List RawItem)
    (interpreted_items : List InterpItem)
    (hk : ∀ k ∈ processKeys raw_items interpreted_items, ¬ k ∈ specialKeys) :
    getArr (process_extracted_items raw_items interpreted_items).1 "review_items" =
      some (processReviewItems raw_items interpreted_items) ∧
    getArr (process_extracted_items raw_items interpreted_items).1 "raw_items" =
      some (processRawItemsOut raw_items interpreted_items) ∧
    getArr (process_extracted_items raw_items interpreted_items).1
      "interpreted_items" =
      some (processInterpItemsOut raw_items interpreted_items) ∧
    (processRawItemsOut raw_items interpreted_items).length =
      (processKeys raw_items interpreted_items).length ∧
    (processInterpItemsOut raw_items interpreted_items).length =
      (processKeys raw_items interpreted_items).length ∧
    ∀ kc ∈ processRecords raw_items interpreted_items,
      alLookup (process_extracted_items raw_items interpreted_items).1 kc.1 =
        some (.obj (fieldRecord kc.2)) ∧
      JVal.obj (fieldRecord kc.2 ++ [("item_name", .str kc.1)]) ∈
        processReviewItems raw_items interpreted_items ∧
      JVal.obj [("item_name", .str kc.1),
        ("raw_text", jGetD (.obj (fieldRecord kc.2)) "raw_text" .null)] ∈
        processRawItemsOut raw_items interpreted_items ∧
      JVal.obj [("item_name", .str kc.1),
        ("interpreted_text",
          jGetD (.obj (fieldRecord kc.2)) "interpreted_text" .null)] ∈
        processInterpItemsOut raw_items interpreted_items := by
  refine ⟨process_getArr_review_items _ _, process_getArr_raw_items _ _,
    process_getArr_interpreted_items _ _, ?_, ?_, ?_⟩
  · simp [processRawItemsOut, processFields, processRecords]
  · simp [processInterpItemsOut, processFields, processRecords]
  · intro kc hm
    have hkmem : kc.1 ∈ processKeys raw_items interpreted_items := by
      rw [← processRecords_fst raw_items interpreted_items]
      exact List.mem_map.2 ⟨kc, hm, rfl⟩
    refine ⟨?_, ?_, ?_, ?_⟩
    · rw [process_lookup_field raw_items interpreted_items kc.1 (hk kc.1 hkmem)]
      apply alLookup_eq_of_mem_nodup
      · rw [processFields_fst]
        exact processKeys_nodup raw_items interpreted_items
      · exact List.mem_map.2 ⟨kc, hm, rfl⟩
    · exact List.mem_map.2 ⟨kc, hm, rfl⟩
    · exact List.mem_map.2 ⟨(kc.1, JVal.obj (fieldRecord kc.2)),
        List.mem_map.2 ⟨kc, hm, rfl⟩, rfl⟩
    · exact List.mem_map.2 ⟨(kc.1, JVal.obj (fieldRecord kc.2)),
        List.mem_map.2 ⟨kc, hm, rfl⟩, rfl⟩

/-- **C10 witness** — the dual-layout property at a concrete one-field
run. -/
theorem default_doc_dual_layout_witness :
    getArr (process_extracted_items [⟨"主訴", some "頭痛"⟩]
        [⟨"主訴", some "頭痛あり"⟩]).1 "review_items" =
      some (processReviewItems [⟨"主訴", some "頭痛"⟩] [⟨"主訴", some "頭痛あり"⟩]) ∧
    getArr (process_extracted_items [⟨"主訴", some "頭痛"⟩]
        [⟨"主訴", some "頭痛あり"⟩]).1 "raw_items" =
      some (processRawItemsOut [⟨"主訴", some "頭痛"⟩] [⟨"主訴", some "頭痛あり"⟩]) ∧
    getArr (process_extracted_items [⟨"主訴", some "頭痛"⟩]
        [⟨"主訴", some "頭痛あり"⟩]).1 "interpreted_items" =
      some (processInterpItemsOut [⟨"主訴", some "頭痛"⟩] [⟨"主訴", some "頭痛あり"⟩]) ∧
    (processRawItemsOut [⟨"主訴", some "頭痛"⟩] [⟨"主訴", some "頭痛あり"⟩]).length =
      (processKeys [⟨"主訴", some "頭痛"⟩] [⟨"主訴", some "頭痛あり"⟩]).length ∧
    (processInterpItemsOut [⟨"主訴", some "頭痛"⟩] [⟨"主訴", some "頭痛あり"⟩]).length =
      (processKeys [⟨"主訴", some "頭痛"⟩] [⟨"主訴", some "頭痛あり"⟩]).length ∧
    ∀ kc ∈ processRecords [⟨"主訴", some "頭痛"⟩] [⟨"主訴", some "頭痛あり"⟩],
      alLookup (process_extracted_items [⟨"主訴", some "頭痛"⟩]
          [⟨"主訴", some "頭痛あり"⟩]).1 kc.1 =
        some (.obj (fieldRecord kc.2)) ∧
      JVal.obj (fieldRecord kc.2 ++ [("item_name", .str kc.1)]) ∈
        processReviewItems [⟨"主訴", some "頭痛"⟩] [⟨"主訴", some "頭痛あり"⟩] ∧
      JVal.obj [("item_name", .str kc.1),
        ("raw_text", jGetD (.obj (fieldRecord kc.2)) "raw_text" .null)] ∈
        processRawItemsOut [⟨"主訴", some "頭痛"⟩] [⟨"主訴", some "頭痛あり"⟩] ∧
      JVal.obj [("item_name", .str kc.1),
        ("interpreted_text",
          jGetD (.obj (fieldRecord kc.2)) "interpreted_text" .null)] ∈
        processInterpItemsOut [⟨"主訴", some "頭痛"⟩] [⟨"主訴", some "頭痛あり"⟩] :=
  default_doc_dual_layout [⟨"主訴", some "頭痛"⟩] [⟨"主訴", some "頭痛あり"⟩]
    (by decide)

end MedChart
